import Mathlib

/-!
Verification of the wiki-summary backend core: the two-tier TTL cache
(backend/cache.py), the sliding-window rate limiter (backend/rate_limiter.py),
the token-budget truncation logic (backend/summarizer.py) and the summarize
request orchestration (backend/api.py), shallowly embedded in Lean.

Modelling conventions, matching the source:
- Python float timestamps (time.time()) are modelled as rationals.
- Python dicts are modelled as association lists with first-match lookup.
- Python falsy string results (None or the empty string) are collapsed to
  the empty string where only truthiness is observed by the code.
- hashlib.md5 hexdigest is an external library function used only as a
  deterministic key derivation; the development is parameterized over it
  as an arbitrary function so every theorem holds for the real hash.
-/

/-! ## Association list primitives (model of Python dict operations) -/

def lookupKey {α : Type} (k : String) : List (String × α) → Option α
  | [] => none
  | (k2, v) :: rest => if k2 = k then some v else lookupKey k rest

def setKey {α : Type} (k : String) (v : α) : List (String × α) → List (String × α)
  | [] => [(k, v)]
  | (k2, w) :: rest => if k2 = k then (k, v) :: rest else (k2, w) :: setKey k v rest

def eraseKey {α : Type} (k : String) : List (String × α) → List (String × α)
  | [] => []
  | (k2, v) :: rest => if k2 = k then rest else (k2, v) :: eraseKey k rest

theorem lookupKey_setKey_self {α : Type} (k : String) (v : α) :
    ∀ l : List (String × α), lookupKey k (setKey k v l) = some v := by
  intro l
  induction l with
  | nil => simp [setKey, lookupKey]
  | cons hd tl ih =>
    obtain ⟨k2, w⟩ := hd
    by_cases h : k2 = k
    · simp [setKey, lookupKey, h]
    · simp [setKey, lookupKey, h, ih]

theorem setKey_setKey_self {α : Type} (k : String) (v w : α) :
    ∀ l : List (String × α), setKey k v (setKey k w l) = setKey k v l := by
  intro l
  induction l with
  | nil => simp [setKey]
  | cons hd tl ih =>
    obtain ⟨k2, u⟩ := hd
    by_cases h : k2 = k
    · simp [setKey, h]
    · simp [setKey, h, ih]

/-! ## Python string primitives used by the source -/

/-- Python str whitespace test, covering the characters str.strip removes. -/
def pyIsSpace (c : Char) : Bool :=
  c = ' ' || c = '\t' || c = '\n' || c = '\r' || c = Char.ofNat 11 || c = Char.ofNat 12

/-- ASCII case folding of one character, the effect of str.lower on the
queries this service handles. -/
def pyLowerChar (c : Char) : Char :=
  if 65 ≤ c.toNat && c.toNat ≤ 90 then Char.ofNat (c.toNat + 32) else c

/-- Python str.lower. -/
def pyLower (s : String) : String := String.mk (s.data.map pyLowerChar)

/-- Python str.strip: drop leading and trailing whitespace. -/
def pyStrip (s : String) : String :=
  String.mk (((s.data.dropWhile pyIsSpace).reverse.dropWhile pyIsSpace).reverse)

/-! ## SimpleCache (backend/cache.py) -/

/-- The two tables of backend/cache.py SimpleCache: the summary cache
(field cache) and the raw-article cache (field article_cache), each mapping
a derived key to a stored value paired with its storage timestamp, plus the
shared TTL. -/
structure SimpleCache where
  cache : List (String × String × ℚ)
  article_cache : List (String × String × ℚ)
  ttl : ℚ

/-- SimpleCache._generate_key: md5(query.lower().strip()).hexdigest(),
parameterized over the external hash function. -/
def generate_key (hash : String → String) (query : String) : String :=
  hash (pyStrip (pyLower query))

/-- SimpleCache.get: summary-cache read with lazy eviction.  Returns the
Python return value together with the cache state after the read. -/
def SimpleCache.get (hash : String → String) (cache_enabled : Bool) (now : ℚ)
    (c : SimpleCache) (query : String) : Option String × SimpleCache :=
  if cache_enabled then
    let key := generate_key hash query
    match lookupKey key c.cache with
    | some (value, timestamp) =>
      if now - timestamp < c.ttl then (some value, c)
      else (none, { c with cache := eraseKey key c.cache })
    | none => (none, c)
  else (none, c)

/-- SimpleCache.set: store a summary under the derived key with storedAt = now. -/
def SimpleCache.set (hash : String → String) (cache_enabled : Bool) (now : ℚ)
    (c : SimpleCache) (query summary : String) : SimpleCache :=
  if cache_enabled then
    { c with cache := setKey (generate_key hash query) (summary, now) c.cache }
  else c

/-- SimpleCache.get_article: article-cache read with lazy eviction. -/
def SimpleCache.get_article (hash : String → String) (cache_enabled : Bool) (now : ℚ)
    (c : SimpleCache) (query : String) : Option String × SimpleCache :=
  if cache_enabled then
    let key := generate_key hash query
    match lookupKey key c.article_cache with
    | some (value, timestamp) =>
      if now - timestamp < c.ttl then (some value, c)
      else (none, { c with article_cache := eraseKey key c.article_cache })
    | none => (none, c)
  else (none, c)

/-- SimpleCache.set_article: store article text under the derived key. -/
def SimpleCache.set_article (hash : String → String) (cache_enabled : Bool) (now : ℚ)
    (c : SimpleCache) (query article_text : String) : SimpleCache :=
  if cache_enabled then
    { c with article_cache := setKey (generate_key hash query) (article_text, now) c.article_cache }
  else c

/-- SimpleCache.clear: empties both tables. -/
def SimpleCache.clear (c : SimpleCache) : SimpleCache :=
  { c with cache := [], article_cache := [] }

/-- SimpleCache.size: len(self.cache), the summary table only. -/
def SimpleCache.size (c : SimpleCache) : Nat :=
  c.cache.length

/-- The size field of the GET /cache/stats response body (backend/api.py),
which reports cache.size(). -/
def cache_stats_size (c : SimpleCache) : Nat := c.size

/-- The cache_size field of the GET /health response body (backend/api.py),
which also reports cache.size(). -/
def health_cache_size (c : SimpleCache) : Nat := c.size

/-- C1: with caching enabled, Get returns the stored value exactly when an
entry exists and now - storedAt < ttl; at now - storedAt >= ttl (including
equality) the entry is deleted as a side effect of the read and the miss
result is returned; and the same holds for the article-cache accessor. -/
theorem cache_get_ttl_correct (hash : String → String) (c : SimpleCache)
    (now : ℚ) (q v : String) (ts : ℚ) :
    (lookupKey (generate_key hash q) c.cache = some (v, ts) →
      (now - ts < c.ttl → SimpleCache.get hash true now c q = (some v, c)) ∧
      (c.ttl ≤ now - ts →
        SimpleCache.get hash true now c q =
          (none, { c with cache := eraseKey (generate_key hash q) c.cache }))) ∧
    (lookupKey (generate_key hash q) c.cache = none →
      SimpleCache.get hash true now c q = (none, c)) ∧
    (lookupKey (generate_key hash q) c.article_cache = some (v, ts) →
      (now - ts < c.ttl → SimpleCache.get_article hash true now c q = (some v, c)) ∧
      (c.ttl ≤ now - ts →
        SimpleCache.get_article hash true now c q =
          (none, { c with article_cache := eraseKey (generate_key hash q) c.article_cache }))) ∧
    (lookupKey (generate_key hash q) c.article_cache = none →
      SimpleCache.get_article hash true now c q = (none, c)) := by
  refine ⟨fun hl => ⟨fun hf => ?_, fun he => ?_⟩, fun hl => ?_,
    fun hl => ⟨fun hf => ?_, fun he => ?_⟩, fun hl => ?_⟩ <;>
    simp [SimpleCache.get, SimpleCache.get_article, hl] <;>
    assumption

theorem cache_get_ttl_correct_witness :
    (SimpleCache.get id true 10 ⟨[("k", ("v", 0))], [("k", ("a", 0))], 100⟩ "K" =
      (some "v", ⟨[("k", ("v", 0))], [("k", ("a", 0))], 100⟩)) ∧
    (SimpleCache.get_article id true 200 ⟨[("k", ("v", 0))], [("k", ("a", 0))], 100⟩ "K" =
      (none, ⟨[("k", ("v", 0))], eraseKey "k" [("k", ("a", 0))], 100⟩)) := by
  constructor
  · exact ((cache_get_ttl_correct id ⟨[("k", ("v", 0))], [("k", ("a", 0))], 100⟩
      10 "K" "v" 0).1 (by decide)).1 (by norm_num)
  · exact ((cache_get_ttl_correct id ⟨[("k", ("v", 0))], [("k", ("a", 0))], 100⟩
      200 "K" "a" 0).2.2.1 (by decide)).2 (by norm_num)

/-- C5: the derived cache key is invariant under case and surrounding
whitespace variation of the query; queries equal after lowercasing and
trimming produce the same key and therefore the same result in both
cache namespaces. -/
theorem generate_key_normalized (hash : String → String) (q1 q2 : String)
    (h : pyStrip (pyLower q1) = pyStrip (pyLower q2)) :
    generate_key hash q1 = generate_key hash q2 ∧
    (∀ (e : Bool) (now : ℚ) (c : SimpleCache),
      SimpleCache.get hash e now c q1 = SimpleCache.get hash e now c q2) ∧
    (∀ (e : Bool) (now : ℚ) (c : SimpleCache),
      SimpleCache.get_article hash e now c q1 = SimpleCache.get_article hash e now c q2) := by
  have hk : generate_key hash q1 = generate_key hash q2 := by
    simp [generate_key, h]
  exact ⟨hk, fun e now c => by simp [SimpleCache.get, hk],
    fun e now c => by simp [SimpleCache.get_article, hk]⟩

theorem generate_key_normalized_witness :
    generate_key id "Quantum Computing" = generate_key id "quantum computing  " := by
  exact (generate_key_normalized id "Quantum Computing" "quantum computing  " (by decide)).1

/-- C9: size() counts only entries of the summary-cache table (as do the
sizes reported by /cache/stats and /health); article-cache entries are
never included; clear() removes the entries of both tables. -/
theorem size_counts_only_summary_table (c : SimpleCache)
    (a : List (String × String × ℚ)) :
    SimpleCache.size c = c.cache.length ∧
    SimpleCache.size { c with article_cache := a } = SimpleCache.size c ∧
    cache_stats_size c = c.cache.length ∧
    health_cache_size c = c.cache.length ∧
    (SimpleCache.clear c).cache = [] ∧
    (SimpleCache.clear c).article_cache = [] := by
  exact ⟨rfl, rfl, rfl, rfl, rfl, rfl⟩

/-! ## RateLimiter (backend/rate_limiter.py) -/

/-- Python int() applied to a rational: truncation toward zero. -/
def pyInt (q : ℚ) : ℤ := if 0 ≤ q then ⌊q⌋ else ⌈q⌉

/-- Python min() over a nonempty list of timestamps (defaulting to 0 on the
empty list, which the source never reaches because it only takes the min of
a window whose length is at least the positive request limit). -/
def pyMin (l : List ℚ) : ℚ := l.foldl min (l.headD 0)

/-- Per-client sliding windows of request timestamps (defaultdict(list)),
plus the configured requests_per_minute limit. -/
structure RateLimiter where
  requests_per_minute : Nat
  requests : List (String × List ℚ)

/-- Read of the defaultdict self.requests: a missing client reads as []. -/
def getWindow (rl : RateLimiter) (client_id : String) : List ℚ :=
  (lookupKey client_id rl.requests).getD []

/-- RateLimiter._clean_old_requests: keep only timestamps req_time with
req_time > current_time - 60. -/
def RateLimiter.clean_old_requests (rl : RateLimiter) (client_id : String)
    (current_time : ℚ) : RateLimiter :=
  { rl with
    requests := setKey client_id
      ((getWindow rl client_id).filter fun req_time => decide (current_time - 60 < req_time))
      rl.requests }

/-- RateLimiter.is_allowed: returns the (allowed, retry_after) pair together
with the limiter state after the call.  The current_time argument models the
time.time() read; the rate_limit_enabled argument models the settings flag. -/
def RateLimiter.is_allowed (rate_limit_enabled : Bool) (current_time : ℚ)
    (rl : RateLimiter) (client_id : String) : (Bool × Option ℤ) × RateLimiter :=
  if rate_limit_enabled then
    let rl1 := rl.clean_old_requests client_id current_time
    if rl1.requests_per_minute ≤ (getWindow rl1 client_id).length then
      let oldest_request := pyMin (getWindow rl1 client_id)
      let retry_after := pyInt (60 - (current_time - oldest_request)) + 1
      ((false, some retry_after), rl1)
    else
      ((true, none),
       { rl1 with
         requests := setKey client_id (getWindow rl1 client_id ++ [current_time]) rl1.requests })
  else ((true, none), rl)

/-- The retry-after formula exactly as the specification words it:
ceil(60 - (now - oldestRemainingTimestamp)) + 1. -/
def spec_retry_after (now oldest : ℚ) : ℤ := ⌈60 - (now - oldest)⌉ + 1

theorem pyInt_eq_floor (q : ℚ) (h : 0 ≤ q) : pyInt q = ⌊q⌋ := by
  rw [pyInt, if_pos h]

theorem foldl_min_mem (l : List ℚ) : ∀ a : ℚ, List.foldl min a l ∈ a :: l := by
  induction l with
  | nil => intro a; simp
  | cons b bs ih =>
    intro a
    rw [List.foldl_cons]
    rcases min_choice a b with hm | hm <;> rw [hm]
    · have h := ih a
      rcases List.mem_cons.mp h with h1 | h1
      · rw [h1]; exact List.mem_cons_self a _
      · exact List.mem_cons_of_mem a (List.mem_cons_of_mem b h1)
    · have h := ih b
      rcases List.mem_cons.mp h with h1 | h1
      · rw [h1]; exact List.mem_cons_of_mem a (List.mem_cons_self b _)
      · exact List.mem_cons_of_mem a (List.mem_cons_of_mem b h1)

theorem pyMin_mem (l : List ℚ) (h : l ≠ []) : pyMin l ∈ l := by
  match l with
  | a :: as =>
    have hm := foldl_min_mem as a
    simpa [pyMin] using hm

theorem foldl_min_of_le (l : List ℚ) : ∀ a : ℚ, (∀ x ∈ l, a ≤ x) → List.foldl min a l = a := by
  induction l with
  | nil => intro a _; rfl
  | cons b bs ih =>
    intro a h
    have hab : min a b = a := min_eq_left (h b (by simp))
    simp only [List.foldl_cons, hab]
    exact ih a fun x hx => h x (by simp [hx])

/-- C4: when rate limiting is disabled, is_allowed returns (true, none) and
leaves the limiter state completely unchanged, for every prior state and
client; in particular no window entry is created for an unseen client. -/
theorem is_allowed_disabled_frame (rl : RateLimiter) (now : ℚ) (client_id : String) :
    RateLimiter.is_allowed false now rl client_id = ((true, none), rl) := rfl

/-- Unfolding of the enabled path of is_allowed: prune, then branch on the
pruned window length. -/
theorem is_allowed_enabled_eq (rl : RateLimiter) (client_id : String) (now : ℚ) :
    RateLimiter.is_allowed true now rl client_id =
      (if rl.requests_per_minute ≤
          ((getWindow rl client_id).filter fun x => decide (now - 60 < x)).length then
        ((false, some (pyInt (60 - (now -
            pyMin ((getWindow rl client_id).filter fun x => decide (now - 60 < x)))) + 1)),
         { rl with
           requests := setKey client_id
             ((getWindow rl client_id).filter fun x => decide (now - 60 < x)) rl.requests })
      else
        ((true, none),
         { rl with
           requests := setKey client_id
             (((getWindow rl client_id).filter fun x => decide (now - 60 < x)) ++ [now])
             rl.requests })) := by
  rw [RateLimiter.is_allowed]
  simp [RateLimiter.clean_old_requests, getWindow, lookupKey_setKey_self, setKey_setKey_self]

/-- Rejection branch of is_allowed: at or above the limit after pruning. -/
theorem is_allowed_reject_eq (rl : RateLimiter) (client_id : String) (now : ℚ)
    (hpos : 1 ≤ rl.requests_per_minute)
    (hlen : rl.requests_per_minute ≤
      ((getWindow rl client_id).filter fun x => decide (now - 60 < x)).length) :
    RateLimiter.is_allowed true now rl client_id =
      ((false, some (⌊60 - (now -
          pyMin ((getWindow rl client_id).filter fun x => decide (now - 60 < x)))⌋ + 1)),
       { rl with
         requests := setKey client_id
           ((getWindow rl client_id).filter fun x => decide (now - 60 < x)) rl.requests }) := by
  have hne : ((getWindow rl client_id).filter fun x => decide (now - 60 < x)) ≠ [] := by
    intro h0
    rw [h0] at hlen
    simp at hlen
    omega
  have hmem := pyMin_mem _ hne
  have hkeep : now - 60 <
      pyMin ((getWindow rl client_id).filter fun x => decide (now - 60 < x)) :=
    of_decide_eq_true (List.mem_filter.mp hmem).2
  have hnn : (0 : ℚ) ≤ 60 - (now -
      pyMin ((getWindow rl client_id).filter fun x => decide (now - 60 < x))) := by
    linarith
  rw [is_allowed_enabled_eq, if_pos hlen, pyInt_eq_floor _ hnn]

theorem is_allowed_admit_eq (rl : RateLimiter) (client_id : String) (now : ℚ)
    (hlen : ((getWindow rl client_id).filter fun x => decide (now - 60 < x)).length
      < rl.requests_per_minute) :
    RateLimiter.is_allowed true now rl client_id =
      ((true, none),
       { rl with
         requests := setKey client_id
           (((getWindow rl client_id).filter fun x => decide (now - 60 < x)) ++ [now])
           rl.requests }) := by
  rw [is_allowed_enabled_eq, if_neg (Nat.not_le.mpr hlen)]

/-- C2 (amended): with rate limiting enabled, timestamps older than
now - 60s are pruned; if the pruned count reaches the limit (including
equality at exactly the limit) the request is rejected without appending a
timestamp and retryAfter = floor(60 - (now - oldestRemaining)) + 1 (the code
truncates toward zero, and the truncated quantity is positive); otherwise
now is appended and the request is admitted with retryAfter none. -/
theorem is_allowed_spec (rl : RateLimiter) (client_id : String) (now : ℚ)
    (hpos : 1 ≤ rl.requests_per_minute) :
    (rl.requests_per_minute ≤
        ((getWindow rl client_id).filter fun x => decide (now - 60 < x)).length →
      RateLimiter.is_allowed true now rl client_id =
        ((false, some (⌊60 - (now -
            pyMin ((getWindow rl client_id).filter fun x => decide (now - 60 < x)))⌋ + 1)),
         { rl with
           requests := setKey client_id
             ((getWindow rl client_id).filter fun x => decide (now - 60 < x)) rl.requests })) ∧
    (((getWindow rl client_id).filter fun x => decide (now - 60 < x)).length
        < rl.requests_per_minute →
      RateLimiter.is_allowed true now rl client_id =
        ((true, none),
         { rl with
           requests := setKey client_id
             (((getWindow rl client_id).filter fun x => decide (now - 60 < x)) ++ [now])
             rl.requests })) :=
  ⟨fun hlen => is_allowed_reject_eq rl client_id now hpos hlen,
   fun hlen => is_allowed_admit_eq rl client_id now hlen⟩

/-- C2 counterexample to the specification formula: at now = 1 with a single
window entry at time 1/2 and limit 1, the code returns retryAfter = 60 (it
truncates 59.5 to 59 and adds 1) while the claimed formula
ceil(60 - (now - oldest)) + 1 gives 61. -/
theorem is_allowed_retry_after_counterexample :
    (RateLimiter.is_allowed true 1 ⟨1, [("c", [1/2])]⟩ "c").fst.snd = some 60 ∧
    spec_retry_after 1 (1/2) = 61 ∧ (some (60 : ℤ) ≠ some (61 : ℤ)) := by
  refine ⟨?_, ?_, by decide⟩
  · have h1 : decide ((1 : ℚ) - 60 < 1/2) = true := decide_eq_true (by norm_num)
    have hw : getWindow ⟨1, [("c", [1/2])]⟩ "c" = [1/2] := by
      simp [getWindow, lookupKey]
    rw [is_allowed_enabled_eq, hw]
    simp only [List.filter_cons, List.filter_nil, h1, if_true, List.length_cons,
      List.length_nil]
    rw [if_pos (by norm_num)]
    simp only [pyMin, List.headD, List.foldl, min_self]
    rw [pyInt_eq_floor _ (by norm_num)]
    norm_num
  · have hcl : ⌈(60 : ℚ) - (1 - 1/2)⌉ = 60 := by
      rw [Int.ceil_eq_iff]
      norm_num
    rw [spec_retry_after, hcl]
    norm_num

theorem is_allowed_spec_witness :
    (RateLimiter.is_allowed true 61 ⟨1, [("c", [1/2])]⟩ "c" =
      ((true, none),
       { requests_per_minute := 1,
         requests := setKey "c"
           (((getWindow ⟨1, [("c", [1/2])]⟩ "c").filter
               fun x => decide ((61:ℚ) - 60 < x)) ++ [61])
           [("c", [1/2])] })) ∧
    (RateLimiter.is_allowed true 0 ⟨1, [("c", [-1/2])]⟩ "c" =
      ((false, some (⌊(60:ℚ) - (0 -
          pyMin ((getWindow ⟨1, [("c", [-1/2])]⟩ "c").filter
            fun x => decide ((0:ℚ) - 60 < x)))⌋ + 1)),
       { requests_per_minute := 1,
         requests := setKey "c"
           ((getWindow ⟨1, [("c", [-1/2])]⟩ "c").filter
             fun x => decide ((0:ℚ) - 60 < x))
           [("c", [-1/2])] })) := by
  constructor
  · refine (is_allowed_spec ⟨1, [("c", [1/2])]⟩ "c" 61 (by norm_num)).2 ?_
    simp [getWindow, lookupKey, List.filter_cons]
    norm_num
  · refine (is_allowed_spec ⟨1, [("c", [-1/2])]⟩ "c" 0 (by norm_num)).1 ?_
    simp [getWindow, lookupKey, List.filter_cons]
    rw [if_pos (by norm_num)]
    simp

/-! ## Repeated admission checks (C3) -/

/-- A sequence of admission checks by one client at the given times,
threading the limiter state and collecting the is_allowed results. -/
def run_checks (rate_limit_enabled : Bool) (client_id : String) :
    RateLimiter → List ℚ → List (Bool × Option ℤ) × RateLimiter
  | rl, [] => ([], rl)
  | rl, t :: rest =>
    let step := RateLimiter.is_allowed rate_limit_enabled t rl client_id
    let next := run_checks rate_limit_enabled client_id step.snd rest
    (step.fst :: next.fst, next.snd)

theorem run_checks_nil (rate_limit_enabled : Bool) (client_id : String)
    (rl : RateLimiter) : run_checks rate_limit_enabled client_id rl [] = ([], rl) := rfl

theorem run_checks_cons (rate_limit_enabled : Bool) (client_id : String)
    (rl : RateLimiter) (u : ℚ) (rest : List ℚ) :
    run_checks rate_limit_enabled client_id rl (u :: rest) =
      ((RateLimiter.is_allowed rate_limit_enabled u rl client_id).fst ::
        (run_checks rate_limit_enabled client_id
          (RateLimiter.is_allowed rate_limit_enabled u rl client_id).snd rest).fst,
       (run_checks rate_limit_enabled client_id
         (RateLimiter.is_allowed rate_limit_enabled u rl client_id).snd rest).snd) := rfl

theorem setKey_eq_of_lookup {α : Type} (k : String) (v : α) :
    ∀ l : List (String × α), lookupKey k l = some v → setKey k v l = l := by
  intro l
  induction l with
  | nil => intro h; simp [lookupKey] at h
  | cons hd tl ih =>
    obtain ⟨k2, w⟩ := hd
    intro h
    by_cases hk : k2 = k
    · rw [lookupKey, if_pos hk] at h
      obtain rfl : w = v := by simpa using h
      simp [setKey, hk]
    · rw [lookupKey, if_neg hk] at h
      simp [setKey, hk, ih h]

/-- An admission check that prunes nothing and is under the limit admits the
request and appends the current time to the window. -/
theorem is_allowed_fresh_admitted (rl : RateLimiter) (client_id : String) (now : ℚ)
    (w : List ℚ) (hw : getWindow rl client_id = w)
    (hfresh : ∀ x ∈ w, now - 60 < x)
    (hlen : w.length < rl.requests_per_minute) :
    RateLimiter.is_allowed true now rl client_id =
      ((true, none),
       { rl with requests := setKey client_id (w ++ [now]) rl.requests }) := by
  have hfil : w.filter (fun x => decide (now - 60 < x)) = w :=
    List.filter_eq_self.mpr fun a ha => decide_eq_true (hfresh a ha)
  rw [is_allowed_enabled_eq, hw, hfil, if_neg (Nat.not_le.mpr hlen)]

/-- Checks that prune nothing and stay within the limit are all admitted and
accumulate their times onto the window of the client in order. -/
theorem run_checks_admit_all (client_id : String) (ts : List ℚ) :
    ∀ (rl : RateLimiter) (w : List ℚ),
      lookupKey client_id rl.requests = some w →
      (∀ x ∈ w ++ ts, ∀ y ∈ ts, y - 60 < x) →
      w.length + ts.length ≤ rl.requests_per_minute →
      run_checks true client_id rl ts =
        (List.replicate ts.length (true, none),
         { rl with requests := setKey client_id (w ++ ts) rl.requests }) := by
  induction ts with
  | nil =>
    intro rl w hw h60 hlen
    simp [run_checks, setKey_eq_of_lookup client_id w rl.requests hw]
  | cons u rest ih =>
    intro rl w hw h60 hlen
    have hstep := is_allowed_fresh_admitted rl client_id u w
      (by simp [getWindow, hw])
      (fun x hx => h60 x (List.mem_append_left _ hx) u (by simp))
      (by simp at hlen; omega)
    have hih := ih { rl with requests := setKey client_id (w ++ [u]) rl.requests }
      (w ++ [u])
      (by simp [lookupKey_setKey_self])
      (by
        intro x hx y hy
        refine h60 x ?_ y (by simp [hy])
        simp only [List.mem_append, List.mem_cons, List.mem_singleton] at hx ⊢
        tauto)
      (by simp at hlen ⊢; omega)
    simp only [run_checks, hstep, hih, List.replicate_succ, List.length_cons]
    simp [setKey_setKey_self]

theorem run_checks_append (rate_limit_enabled : Bool) (client_id : String)
    (l1 l2 : List ℚ) :
    ∀ rl : RateLimiter,
      run_checks rate_limit_enabled client_id rl (l1 ++ l2) =
        ((run_checks rate_limit_enabled client_id rl l1).fst ++
          (run_checks rate_limit_enabled client_id
            (run_checks rate_limit_enabled client_id rl l1).snd l2).fst,
         (run_checks rate_limit_enabled client_id
           (run_checks rate_limit_enabled client_id rl l1).snd l2).snd) := by
  induction l1 with
  | nil => intro rl; simp [run_checks]
  | cons u rest ih => intro rl; simp [run_checks, ih]

/-- C3: with limit 10, for any 11 admission checks by one client at
non-decreasing times within a single 60-second window, the first 10 are
admitted, the 11th is rejected with 0 < retryAfter <= 61, and a further
check retryAfter seconds after the rejection is admitted. -/
theorem rate_limit_boundary (client_id : String) (t : Fin 11 → ℚ)
    (hmono : ∀ i j : Fin 11, i ≤ j → t i ≤ t j)
    (hspread : t 10 - t 0 < 60) :
    ∃ (retry : ℤ) (rlB : RateLimiter),
      run_checks true client_id ⟨10, []⟩
          [t 0, t 1, t 2, t 3, t 4, t 5, t 6, t 7, t 8, t 9, t 10] =
        (List.replicate 10 ((true : Bool), (none : Option ℤ)) ++ [(false, some retry)],
         rlB) ∧
      0 < retry ∧ retry ≤ 61 ∧
      (RateLimiter.is_allowed true (t 10 + (retry : ℚ)) rlB client_id).fst =
        (true, none) := by
  have hle10 : ∀ j : Fin 11, j ≤ (10 : Fin 11) := by decide
  have h0le : ∀ j : Fin 11, (0 : Fin 11) ≤ j := by decide
  have key : ∀ i j : Fin 11, t j - 60 < t i := by
    intro i j
    have h1 : t j ≤ t 10 := hmono j 10 (hle10 j)
    have h2 : t 0 ≤ t i := hmono 0 i (h0le i)
    linarith
  have hmemW : ∀ x ∈ [t 0, t 1, t 2, t 3, t 4, t 5, t 6, t 7, t 8, t 9],
      ∃ i : Fin 11, x = t i := by
    intro x hx
    simp only [List.mem_cons, List.not_mem_nil, or_false] at hx
    rcases hx with rfl | rfl | rfl | rfl | rfl | rfl | rfl | rfl | rfl | rfl
    · exact ⟨0, rfl⟩
    · exact ⟨1, rfl⟩
    · exact ⟨2, rfl⟩
    · exact ⟨3, rfl⟩
    · exact ⟨4, rfl⟩
    · exact ⟨5, rfl⟩
    · exact ⟨6, rfl⟩
    · exact ⟨7, rfl⟩
    · exact ⟨8, rfl⟩
    · exact ⟨9, rfl⟩
  -- first check, from the empty window
  have hstep0 : RateLimiter.is_allowed true (t 0) ⟨10, []⟩ client_id =
      ((true, none), ⟨10, [(client_id, [t 0])]⟩) := by
    rw [is_allowed_fresh_admitted ⟨10, []⟩ client_id (t 0) []
      (by simp [getWindow, lookupKey]) (by intro x hx; cases hx) (by simp)]
    simp [setKey]
  -- checks 2..10
  have hrun9 : run_checks true client_id ⟨10, [(client_id, [t 0])]⟩
      [t 1, t 2, t 3, t 4, t 5, t 6, t 7, t 8, t 9] =
      (List.replicate 9 ((true : Bool), (none : Option ℤ)),
       ⟨10, [(client_id, [t 0, t 1, t 2, t 3, t 4, t 5, t 6, t 7, t 8, t 9])]⟩) := by
    rw [run_checks_admit_all client_id
      [t 1, t 2, t 3, t 4, t 5, t 6, t 7, t 8, t 9]
      ⟨10, [(client_id, [t 0])]⟩
      [t 0]
      (by simp [lookupKey])
      (by
      intro x hx y hy
      have hx2 : ∃ i : Fin 11, x = t i := by
        apply hmemW
        simp only [List.singleton_append, List.mem_cons, List.not_mem_nil, or_false] at hx
        simp only [List.mem_cons, List.not_mem_nil, or_false]
        tauto
      have hy2 : ∃ j : Fin 11, y = t j := by
        apply hmemW
        simp only [List.mem_cons, List.not_mem_nil, or_false] at hy
        simp only [List.mem_cons, List.not_mem_nil, or_false]
        tauto
      obtain ⟨i, rfl⟩ := hx2
      obtain ⟨j, rfl⟩ := hy2
      exact key i j)
      (by simp)]
    simp [setKey]
  -- the 11th check is rejected
  have hW10 : getWindow ⟨10, [(client_id, [t 0, t 1, t 2, t 3, t 4, t 5, t 6, t 7,
      t 8, t 9])]⟩ client_id = [t 0, t 1, t 2, t 3, t 4, t 5, t 6, t 7, t 8, t 9] := by
    simp [getWindow, lookupKey]
  have hfilW : List.filter (fun x => decide (t 10 - 60 < x))
      [t 0, t 1, t 2, t 3, t 4, t 5, t 6, t 7, t 8, t 9] =
      [t 0, t 1, t 2, t 3, t 4, t 5, t 6, t 7, t 8, t 9] := by
    refine List.filter_eq_self.mpr fun a ha => decide_eq_true ?_
    obtain ⟨i, rfl⟩ := hmemW a ha
    exact key i 10
  have hminW : pyMin [t 0, t 1, t 2, t 3, t 4, t 5, t 6, t 7, t 8, t 9] = t 0 := by
    have hbound : ∀ x ∈ [t 0, t 1, t 2, t 3, t 4, t 5, t 6, t 7, t 8, t 9], t 0 ≤ x := by
      intro x hx
      obtain ⟨i, rfl⟩ := hmemW x hx
      exact hmono 0 i (h0le i)
    calc pyMin [t 0, t 1, t 2, t 3, t 4, t 5, t 6, t 7, t 8, t 9]
        = List.foldl min (t 0) [t 0, t 1, t 2, t 3, t 4, t 5, t 6, t 7, t 8, t 9] := rfl
      _ = t 0 := foldl_min_of_le _ (t 0) hbound
  have hreject := is_allowed_reject_eq
    ⟨10, [(client_id, [t 0, t 1, t 2, t 3, t 4, t 5, t 6, t 7, t 8, t 9])]⟩
    client_id (t 10) (by norm_num)
    (by rw [hW10, hfilW]; simp)
  rw [hW10, hfilW, hminW] at hreject
  have hreject2 : RateLimiter.is_allowed true (t 10)
      ⟨10, [(client_id, [t 0, t 1, t 2, t 3, t 4, t 5, t 6, t 7, t 8, t 9])]⟩ client_id =
      ((false, some (⌊60 - (t 10 - t 0)⌋ + 1)),
       ⟨10, [(client_id, [t 0, t 1, t 2, t 3, t 4, t 5, t 6, t 7, t 8, t 9])]⟩) := by
    rw [hreject]
    simp [setKey]
  -- bounds on the computed retry value
  have hx0 : (0 : ℚ) < 60 - (t 10 - t 0) := by linarith
  have hx60 : (60 : ℚ) - (t 10 - t 0) ≤ 60 := by
    have := hmono 0 10 (h0le 10)
    linarith
  have hfl0 : 0 ≤ ⌊(60 : ℚ) - (t 10 - t 0)⌋ := Int.floor_nonneg.mpr hx0.le
  have hfl60 : ⌊(60 : ℚ) - (t 10 - t 0)⌋ ≤ 60 := by
    have h1 : ⌊(60 : ℚ) - (t 10 - t 0)⌋ ≤ ⌊(60 : ℚ)⌋ := Int.floor_le_floor hx60
    have h2 : ⌊(60 : ℚ)⌋ = 60 := by norm_num
    omega
  refine ⟨⌊(60 : ℚ) - (t 10 - t 0)⌋ + 1,
    ⟨10, [(client_id, [t 0, t 1, t 2, t 3, t 4, t 5, t 6, t 7, t 8, t 9])]⟩, ?_,
    by omega, by omega, ?_⟩
  · -- assemble the full 11-check run
    have hrun10 : run_checks true client_id ⟨10, []⟩
        (t 0 :: [t 1, t 2, t 3, t 4, t 5, t 6, t 7, t 8, t 9]) =
        ((true, none) :: List.replicate 9 ((true : Bool), (none : Option ℤ)),
         ⟨10, [(client_id, [t 0, t 1, t 2, t 3, t 4, t 5, t 6, t 7, t 8, t 9])]⟩) := by
      rw [run_checks_cons, hstep0]
      dsimp only
      rw [hrun9]
    have hsplit : ([t 0, t 1, t 2, t 3, t 4, t 5, t 6, t 7, t 8, t 9, t 10] : List ℚ) =
        (t 0 :: [t 1, t 2, t 3, t 4, t 5, t 6, t 7, t 8, t 9]) ++ [t 10] := by simp
    rw [hsplit, run_checks_append, hrun10]
    dsimp only
    rw [run_checks_cons, hreject2]
    dsimp only
    rw [run_checks_nil]
    simp [List.replicate]
  · -- recovery after retry seconds
    have hpast : ¬ (t 10 + ((⌊(60 : ℚ) - (t 10 - t 0)⌋ + 1 : ℤ) : ℚ) - 60 < t 0) := by
      have hlt : (60 : ℚ) - (t 10 - t 0) < ((⌊(60 : ℚ) - (t 10 - t 0)⌋ + 1 : ℤ) : ℚ) := by
        push_cast
        exact Int.lt_floor_add_one _
      intro hcon
      push_cast at hlt hcon
      linarith
    have hcond : ((getWindow
        ⟨10, [(client_id, [t 0, t 1, t 2, t 3, t 4, t 5, t 6, t 7, t 8, t 9])]⟩
        client_id).filter fun x =>
          decide (t 10 + ((⌊(60 : ℚ) - (t 10 - t 0)⌋ + 1 : ℤ) : ℚ) - 60 < x)).length <
        (⟨10, [(client_id, [t 0, t 1, t 2, t 3, t 4, t 5, t 6, t 7, t 8, t 9])]⟩ :
          RateLimiter).requests_per_minute := by
      rw [hW10, List.filter_cons, decide_eq_false hpast, if_neg (by simp)]
      have hlenle := List.length_filter_le
        (fun x => decide (t 10 + ((⌊(60 : ℚ) - (t 10 - t 0)⌋ + 1 : ℤ) : ℚ) - 60 < x))
        [t 1, t 2, t 3, t 4, t 5, t 6, t 7, t 8, t 9]
      simp only [List.length_cons, List.length_nil] at hlenle
      show _ < 10
      omega
    have hfin := is_allowed_admit_eq
      ⟨10, [(client_id, [t 0, t 1, t 2, t 3, t 4, t 5, t 6, t 7, t 8, t 9])]⟩
      client_id (t 10 + ((⌊(60 : ℚ) - (t 10 - t 0)⌋ + 1 : ℤ) : ℚ)) hcond
    rw [hfin]

theorem rate_limit_boundary_witness :
    ∃ (retry : ℤ) (rlB : RateLimiter),
      run_checks true "client" ⟨10, []⟩
          [(0 : ℚ), 0, 0, 0, 0, 0, 0, 0, 0, 0, 0] =
        (List.replicate 10 ((true : Bool), (none : Option ℤ)) ++ [(false, some retry)],
         rlB) ∧
      0 < retry ∧ retry ≤ 61 ∧
      (RateLimiter.is_allowed true ((0 : ℚ) + (retry : ℚ)) rlB "client").fst =
        (true, none) :=
  rate_limit_boundary "client" (fun _ => 0) (fun _ _ _ => le_refl 0) (by norm_num)

/-! ## Token counting and truncation (backend/summarizer.py) -/

/-- A tokenizer as used by the source: encode text to a token list and
decode a token list back to text. -/
structure Encoding (τ : Type) where
  encode : String → List τ
  decode : List τ → String

/-- count_tokens on the primary path: the length of the encoded text.
(The len(text)//4 fallback is reached only when the tokenizer library
raises, which the pure model does not.) -/
def count_tokens {τ : Type} (enc : Encoding τ) (text : String) : Nat :=
  (enc.encode text).length

/-- truncate_to_tokens: return the text unchanged when it fits the budget,
otherwise decode only the first max_tokens tokens. -/
def truncate_to_tokens {τ : Type} (enc : Encoding τ) (text : String)
    (max_tokens : Nat) : String :=
  let tokens := enc.encode text
  if tokens.length ≤ max_tokens then text
  else enc.decode (List.take max_tokens tokens)

/-- Modelled from the spec: the tiktoken cl100k_base encoding returned by
_get_encoding is an external collaborator, and section 1 of the spec makes
exact replication of any particular tokenization a non-goal as long as the
strategy is deterministic; it is modelled as the character-level encoding,
which is deterministic and round-trips exactly. -/
def model_encoding : Encoding Char where
  encode s := s.data
  decode l := String.mk l

theorem model_encoding_decode_encode (s : String) :
    model_encoding.decode (model_encoding.encode s) = s := rfl

/-- For any tokenizer whose encode inverts its decode on token lists,
truncation is stable at a fixed budget. -/
theorem truncate_idem_of_inverse {τ : Type} (enc : Encoding τ)
    (hinv : ∀ l : List τ, enc.encode (enc.decode l) = l)
    (text : String) (max_tokens : Nat) :
    truncate_to_tokens enc (truncate_to_tokens enc text max_tokens) max_tokens =
      truncate_to_tokens enc text max_tokens := by
  unfold truncate_to_tokens
  by_cases h : (enc.encode text).length ≤ max_tokens
  · simp [h]
  · simp only [h, if_false]
    have hlen : (enc.encode (enc.decode (List.take max_tokens (enc.encode text)))).length
        ≤ max_tokens := by
      rw [hinv]
      simp [List.length_take]
    simp [hlen]

/-- C6: truncation is budget-respecting and stable: text within the budget
is returned unchanged, and truncating an already-truncated-to-N result at
budget N is a no-op. -/
theorem truncate_to_tokens_stable (text : String) (max_tokens : Nat) :
    (count_tokens model_encoding text ≤ max_tokens →
      truncate_to_tokens model_encoding text max_tokens = text) ∧
    truncate_to_tokens model_encoding (truncate_to_tokens model_encoding text max_tokens)
        max_tokens = truncate_to_tokens model_encoding text max_tokens := by
  constructor
  · intro h
    show (if (model_encoding.encode text).length ≤ max_tokens then text
      else model_encoding.decode (List.take max_tokens (model_encoding.encode text))) = text
    have h2 : (model_encoding.encode text).length ≤ max_tokens := h
    rw [if_pos h2]
  · exact truncate_idem_of_inverse model_encoding (fun l => rfl) text max_tokens

theorem truncate_to_tokens_stable_witness :
    truncate_to_tokens model_encoding "abc" 5 = "abc" :=
  (truncate_to_tokens_stable "abc" 5).1 (by decide)

/-! ## Summarization and the /summarize workflow (backend/summarizer.py, backend/api.py) -/

/-- The prompt string built by summarize_article around the truncated
article text. -/
def build_prompt (max_words : Nat) (truncated_text : String) : String :=
  "Please provide a concise summary of the following Wikipedia article in approximately "
  ++ toString max_words ++ " words or less. " ++ "\n"
  ++ "Focus on the main points, key facts, and important information. Write in clear, readable prose."
  ++ "\n\nArticle content:\n" ++ truncated_text ++ "\n\nSummary:"

/-- summarize_article: truncate the article to the input-token budget, call
the model on the prompt, and strip the response.  The generate parameter
models the external OpenAI chat-completion call; a failed or exception
branch (which returns None) is collapsed to the empty string, which the
caller tests for in the same way. -/
def summarize_article {τ : Type} (enc : Encoding τ) (generate : String → String)
    (max_input_tokens max_summary_words : Nat) (article_text : String) : String :=
  let truncated_text := truncate_to_tokens enc article_text max_input_tokens
  pyStrip (generate (build_prompt max_summary_words truncated_text))

/-- The outcome of the POST /summarize handler: the successful response body
or the raised typed error. -/
inductive SummarizeResult where
  | ok (query summary source_url : String)
  | articleNotFound (query : String)
  | summarizationFailed

/-- The result of one summarize_wikipedia call together with the final cache
state and how many times each external collaborator was invoked. -/
structure SummarizeOutcome where
  result : SummarizeResult
  cache : SimpleCache
  fetch_calls : Nat
  llm_calls : Nat

/-- Python truthiness test on an optional string: None and the empty string
are falsy. -/
def isFalsy : Option String → Bool
  | none => true
  | some s => s = ""

/-- backend/api.py lines 112 - 129: the shared tail of summarize_wikipedia
reached on a summary-cache miss (and on a hit whose re-fetch yielded no
URL): fetch the article, fail with ArticleNotFound on a falsy text or URL,
store the article text, generate the summary, fail with SummarizationError
on a falsy summary, store and return it.  fetch results (None, None) from
the scraper are modelled as a pair of empty strings. -/
def fetch_and_generate {τ : Type} (hash : String → String) (enc : Encoding τ)
    (fetch : String → String × String) (generate : String → String)
    (cache_enabled : Bool) (max_input_tokens max_summary_words : Nat) (now : ℚ)
    (c1 : SimpleCache) (query : String) (prior_fetches : Nat) : SummarizeOutcome :=
  let fetched := fetch query
  let article_text := fetched.fst
  let article_url := fetched.snd
  if article_text = "" ∨ article_url = "" then
    ⟨SummarizeResult.articleNotFound query, c1, prior_fetches + 1, 0⟩
  else
    let c2 := SimpleCache.set_article hash cache_enabled now c1 query article_text
    let summary := summarize_article enc generate max_input_tokens max_summary_words article_text
    if summary = "" then
      ⟨SummarizeResult.summarizationFailed, c2, prior_fetches + 1, 1⟩
    else
      ⟨SummarizeResult.ok query summary article_url,
       SimpleCache.set hash cache_enabled now c2 query summary, prior_fetches + 1, 1⟩

/-- backend/api.py summarize_wikipedia: strip the query, try the summary
cache; on a truthy hit re-fetch to resolve the current source URL,
repopulate a cold article cache, and return the cached summary; otherwise
fall through to the fetch-and-generate tail. -/
def summarize_wikipedia {τ : Type} (hash : String → String) (enc : Encoding τ)
    (fetch : String → String × String) (generate : String → String)
    (cache_enabled : Bool) (max_input_tokens max_summary_words : Nat) (now : ℚ)
    (c : SimpleCache) (raw_query : String) : SummarizeOutcome :=
  let query := pyStrip raw_query
  match SimpleCache.get hash cache_enabled now c query with
  | (some cached_summary, c1) =>
    if cached_summary = "" then
      fetch_and_generate hash enc fetch generate cache_enabled max_input_tokens
        max_summary_words now c1 query 0
    else
      let fetched := fetch query
      let article_text := fetched.fst
      let article_url := fetched.snd
      if article_url = "" then
        fetch_and_generate hash enc fetch generate cache_enabled max_input_tokens
          max_summary_words now c1 query 1
      else
        match SimpleCache.get_article hash cache_enabled now c1 query with
        | (cached_article, c2) =>
          let c3 := if isFalsy cached_article then
              SimpleCache.set_article hash cache_enabled now c2 query article_text
            else c2
          ⟨SummarizeResult.ok query cached_summary article_url, c3, 1, 0⟩
  | (none, c1) =>
    fetch_and_generate hash enc fetch generate cache_enabled max_input_tokens
      max_summary_words now c1 query 0

/-- Case analysis of the fetch-and-generate tail. -/
theorem fetch_and_generate_spec {τ : Type} (hash : String → String) (enc : Encoding τ)
    (fetch : String → String × String) (generate : String → String)
    (max_input_tokens max_summary_words : Nat) (now : ℚ) (c1 : SimpleCache)
    (query : String) (prior_fetches : Nat) (a_text a_url : String)
    (hfetch : fetch query = (a_text, a_url)) :
    ((a_text = "" ∨ a_url = "") →
      fetch_and_generate hash enc fetch generate true max_input_tokens
          max_summary_words now c1 query prior_fetches =
        ⟨SummarizeResult.articleNotFound query, c1, prior_fetches + 1, 0⟩) ∧
    (a_text ≠ "" → a_url ≠ "" →
      summarize_article enc generate max_input_tokens max_summary_words a_text = "" →
      fetch_and_generate hash enc fetch generate true max_input_tokens
          max_summary_words now c1 query prior_fetches =
        ⟨SummarizeResult.summarizationFailed,
         SimpleCache.set_article hash true now c1 query a_text, prior_fetches + 1, 1⟩) ∧
    (a_text ≠ "" → a_url ≠ "" →
      summarize_article enc generate max_input_tokens max_summary_words a_text ≠ "" →
      fetch_and_generate hash enc fetch generate true max_input_tokens
          max_summary_words now c1 query prior_fetches =
        ⟨SummarizeResult.ok query
           (summarize_article enc generate max_input_tokens max_summary_words a_text) a_url,
         SimpleCache.set hash true now
           (SimpleCache.set_article hash true now c1 query a_text) query
           (summarize_article enc generate max_input_tokens max_summary_words a_text),
         prior_fetches + 1, 1⟩) := by
  unfold fetch_and_generate
  rw [hfetch]
  refine ⟨fun h => ?_, fun h1 h2 h3 => ?_, fun h1 h2 h3 => ?_⟩
  · rw [if_pos h]
  · rw [if_neg (by tauto), if_pos h3]
  · rw [if_neg (by tauto), if_neg h3]

/-- On a falsy summary-cache read (a miss, or a stored empty summary) the
handler is the fetch-and-generate tail started from the post-read cache. -/
theorem summarize_wikipedia_miss_eq (hash : String → String) {τ : Type} (enc : Encoding τ)
    (fetch : String → String × String) (generate : String → String)
    (max_input_tokens max_summary_words : Nat) (now : ℚ) (c : SimpleCache)
    (q : String)
    (hmiss : isFalsy (SimpleCache.get hash true now c (pyStrip q)).fst = true) :
    summarize_wikipedia hash enc fetch generate true max_input_tokens
        max_summary_words now c q =
      fetch_and_generate hash enc fetch generate true max_input_tokens
        max_summary_words now (SimpleCache.get hash true now c (pyStrip q)).snd
        (pyStrip q) 0 := by
  unfold summarize_wikipedia
  dsimp only
  rcases hg : SimpleCache.get hash true now c (pyStrip q) with ⟨o, c1⟩
  cases o with
  | none => rfl
  | some s =>
    rw [hg] at hmiss
    have hs : s = "" := by simpa [isFalsy] using hmiss
    subst hs
    rfl

/-- C7: on the summary-cache miss path with caching enabled: a fetch
yielding falsy text or URL fails with ArticleNotFound and writes neither
cache table; otherwise the article is stored in the article cache and the
model is called on the article truncated to the input budget; a falsy
generation fails with SummarizationFailed while the article-cache write
persists and the summary table is unwritten; a truthy generation is stored
in the summary cache and returned with the source URL. -/
theorem summarize_miss_path (hash : String → String) {τ : Type} (enc : Encoding τ)
    (fetch : String → String × String) (generate : String → String)
    (max_input_tokens max_summary_words : Nat) (now : ℚ) (c : SimpleCache)
    (q a_text a_url : String)
    (hmiss : isFalsy (SimpleCache.get hash true now c (pyStrip q)).fst = true)
    (hfetch : fetch (pyStrip q) = (a_text, a_url)) :
    ((a_text = "" ∨ a_url = "") →
      summarize_wikipedia hash enc fetch generate true max_input_tokens
          max_summary_words now c q =
        ⟨SummarizeResult.articleNotFound (pyStrip q),
         (SimpleCache.get hash true now c (pyStrip q)).snd, 1, 0⟩) ∧
    (a_text ≠ "" → a_url ≠ "" →
      summarize_article enc generate max_input_tokens max_summary_words a_text = "" →
      summarize_wikipedia hash enc fetch generate true max_input_tokens
          max_summary_words now c q =
        ⟨SummarizeResult.summarizationFailed,
         SimpleCache.set_article hash true now
           (SimpleCache.get hash true now c (pyStrip q)).snd (pyStrip q) a_text, 1, 1⟩) ∧
    (a_text ≠ "" → a_url ≠ "" →
      summarize_article enc generate max_input_tokens max_summary_words a_text ≠ "" →
      summarize_wikipedia hash enc fetch generate true max_input_tokens
          max_summary_words now c q =
        ⟨SummarizeResult.ok (pyStrip q)
           (summarize_article enc generate max_input_tokens max_summary_words a_text) a_url,
         SimpleCache.set hash true now
           (SimpleCache.set_article hash true now
             (SimpleCache.get hash true now c (pyStrip q)).snd (pyStrip q) a_text)
           (pyStrip q)
           (summarize_article enc generate max_input_tokens max_summary_words a_text),
         1, 1⟩) ∧
    (summarize_article enc generate max_input_tokens max_summary_words a_text =
      pyStrip (generate (build_prompt max_summary_words
        (truncate_to_tokens enc a_text max_input_tokens)))) ∧
    ((SimpleCache.set_article hash true now
        (SimpleCache.get hash true now c (pyStrip q)).snd (pyStrip q) a_text).cache =
      ((SimpleCache.get hash true now c (pyStrip q)).snd).cache) := by
  have hbody := summarize_wikipedia_miss_eq hash enc fetch generate max_input_tokens
    max_summary_words now c q hmiss
  have hspec := fetch_and_generate_spec hash enc fetch generate max_input_tokens
    max_summary_words now (SimpleCache.get hash true now c (pyStrip q)).snd
    (pyStrip q) 0 a_text a_url hfetch
  refine ⟨fun h => ?_, fun h1 h2 h3 => ?_, fun h1 h2 h3 => ?_, rfl, ?_⟩
  · rw [hbody, hspec.1 h]
  · rw [hbody, hspec.2.1 h1 h2 h3]
  · rw [hbody, hspec.2.2 h1 h2 h3]
  · simp [SimpleCache.set_article]

theorem summarize_miss_path_witness :
    summarize_wikipedia id model_encoding (fun _ => ("T", "u")) (fun _ => "S")
        true 6000 300 0 ⟨[], [], 3600⟩ "Py" =
      ⟨SummarizeResult.ok (pyStrip "Py")
         (summarize_article model_encoding (fun _ => "S") 6000 300 "T") "u",
       SimpleCache.set id true 0
         (SimpleCache.set_article id true 0
           (SimpleCache.get id true 0 ⟨[], [], 3600⟩ (pyStrip "Py")).snd
           (pyStrip "Py") "T")
         (pyStrip "Py")
         (summarize_article model_encoding (fun _ => "S") 6000 300 "T"),
       1, 1⟩ :=
  (summarize_miss_path id model_encoding (fun _ => ("T", "u")) (fun _ => "S")
    6000 300 0 ⟨[], [], 3600⟩ "Py" "T" "u" rfl rfl).2.2.1
    (by decide) (by decide) (by decide)

/-- A truthy Get result can only come from the fresh branch: the state is
unchanged and the table holds the returned value under the derived key. -/
theorem get_fst_some (hash : String → String) (now : ℚ) (c : SimpleCache)
    (q s : String)
    (hhit : (SimpleCache.get hash true now c q).fst = some s) :
    SimpleCache.get hash true now c q = (some s, c) ∧
    ∃ ts : ℚ, lookupKey (generate_key hash q) c.cache = some (s, ts) ∧
      now - ts < c.ttl := by
  revert hhit
  unfold SimpleCache.get
  dsimp only
  rcases hl : lookupKey (generate_key hash q) c.cache with _ | ⟨v, ts⟩
  · intro h
    simp at h
  · rw [if_pos rfl]
    dsimp only
    by_cases hf : now - ts < c.ttl
    · rw [if_pos hf]
      intro h
      obtain rfl : v = s := by simpa using h
      exact ⟨rfl, ts, rfl, hf⟩
    · rw [if_neg hf]
      intro h
      simp at h

/-- On a truthy summary-cache hit whose re-fetch resolves a truthy URL, the
handler returns the cached summary with the fresh URL, repopulating the
article cache exactly when its read was falsy. -/
theorem summarize_wikipedia_hit_eq (hash : String → String) {τ : Type} (enc : Encoding τ)
    (fetch : String → String × String) (generate : String → String)
    (max_input_tokens max_summary_words : Nat) (now : ℚ) (c : SimpleCache)
    (q s a_text a_url : String)
    (hhit : (SimpleCache.get hash true now c (pyStrip q)).fst = some s)
    (hs : s ≠ "")
    (hfetch : fetch (pyStrip q) = (a_text, a_url))
    (hurl : a_url ≠ "") :
    summarize_wikipedia hash enc fetch generate true max_input_tokens
        max_summary_words now c q =
      ⟨SummarizeResult.ok (pyStrip q) s a_url,
       if isFalsy (SimpleCache.get_article hash true now
            (SimpleCache.get hash true now c (pyStrip q)).snd (pyStrip q)).fst = true then
         SimpleCache.set_article hash true now
           (SimpleCache.get_article hash true now
             (SimpleCache.get hash true now c (pyStrip q)).snd (pyStrip q)).snd
           (pyStrip q) a_text
       else
         (SimpleCache.get_article hash true now
           (SimpleCache.get hash true now c (pyStrip q)).snd (pyStrip q)).snd,
       1, 0⟩ := by
  unfold summarize_wikipedia
  dsimp only
  rcases hg : SimpleCache.get hash true now c (pyStrip q) with ⟨o, c1⟩
  rw [hg] at hhit
  obtain rfl : o = some s := hhit
  rw [hfetch]
  dsimp only
  rw [if_neg hs, if_neg hurl]

/-- On a truthy summary-cache hit whose re-fetch resolves a falsy URL, the
handler falls through to the fetch-and-generate tail with one fetch already
performed. -/
theorem summarize_wikipedia_hit_nourl_eq (hash : String → String) {τ : Type}
    (enc : Encoding τ)
    (fetch : String → String × String) (generate : String → String)
    (max_input_tokens max_summary_words : Nat) (now : ℚ) (c : SimpleCache)
    (q s a_text : String)
    (hhit : (SimpleCache.get hash true now c (pyStrip q)).fst = some s)
    (hs : s ≠ "")
    (hfetch : fetch (pyStrip q) = (a_text, "")) :
    summarize_wikipedia hash enc fetch generate true max_input_tokens
        max_summary_words now c q =
      fetch_and_generate hash enc fetch generate true max_input_tokens
        max_summary_words now (SimpleCache.get hash true now c (pyStrip q)).snd
        (pyStrip q) 1 := by
  unfold summarize_wikipedia
  dsimp only
  rcases hg : SimpleCache.get hash true now c (pyStrip q) with ⟨o, c1⟩
  rw [hg] at hhit
  obtain rfl : o = some s := hhit
  rw [hfetch]
  dsimp only
  rw [if_neg hs, if_pos rfl]

/-- A fresh entry under the derived key makes Get return it and leave the
state unchanged. -/
theorem get_hit_eq (hash : String → String) (now : ℚ) (c : SimpleCache)
    (q v : String) (ts : ℚ)
    (hl : lookupKey (generate_key hash q) c.cache = some (v, ts))
    (hf : now - ts < c.ttl) :
    SimpleCache.get hash true now c q = (some v, c) := by
  simp [SimpleCache.get, hl, hf]

/-- Get never changes the ttl field. -/
theorem get_snd_ttl (hash : String → String) (e : Bool) (now : ℚ) (c : SimpleCache)
    (q : String) : (SimpleCache.get hash e now c q).snd.ttl = c.ttl := by
  unfold SimpleCache.get
  cases e
  · rfl
  · dsimp only
    rcases hl : lookupKey (generate_key hash q) c.cache with _ | ⟨v, ts⟩
    · rfl
    · rw [if_pos rfl]
      dsimp only
      by_cases hf : now - ts < c.ttl
      · rw [if_pos hf]
      · rw [if_neg hf]

/-- C10: on a truthy summary-cache hit where the fetcher resolves an empty
URL, the handler does not return the cached summary: it falls through,
calls the fetcher a second time for the same query, and with that call also
yielding no URL it fails with ArticleNotFound, leaving the still-valid
cached summary entry in place and never calling the model. -/
theorem summarize_hit_staleurl (hash : String → String) {τ : Type} (enc : Encoding τ)
    (fetch : String → String × String) (generate : String → String)
    (max_input_tokens max_summary_words : Nat) (now : ℚ) (c : SimpleCache)
    (q s a_text : String)
    (hhit : (SimpleCache.get hash true now c (pyStrip q)).fst = some s)
    (hs : s ≠ "")
    (hfetch : fetch (pyStrip q) = (a_text, "")) :
    summarize_wikipedia hash enc fetch generate true max_input_tokens
        max_summary_words now c q =
      ⟨SummarizeResult.articleNotFound (pyStrip q), c, 2, 0⟩ ∧
    ∃ ts : ℚ, lookupKey (generate_key hash (pyStrip q)) c.cache = some (s, ts) ∧
      now - ts < c.ttl := by
  obtain ⟨hgeq, ts, hl, hf⟩ := get_fst_some hash now c (pyStrip q) s hhit
  have h1 := summarize_wikipedia_hit_nourl_eq hash enc fetch generate max_input_tokens
    max_summary_words now c q s a_text hhit hs hfetch
  have h2 := (fetch_and_generate_spec hash enc fetch generate max_input_tokens
    max_summary_words now (SimpleCache.get hash true now c (pyStrip q)).snd
    (pyStrip q) 1 a_text "" hfetch).1 (Or.inr rfl)
  rw [h1, h2, hgeq]
  exact ⟨rfl, ts, hl, hf⟩

theorem summarize_hit_staleurl_witness :
    (summarize_wikipedia id model_encoding (fun _ => ("", "")) (fun _ => "")
        true 6000 300 1 ⟨[("q", ("S", 0))], [], 3600⟩ "Q" =
      ⟨SummarizeResult.articleNotFound (pyStrip "Q"),
       ⟨[("q", ("S", 0))], [], 3600⟩, 2, 0⟩) ∧
    ∃ ts : ℚ, lookupKey (generate_key id (pyStrip "Q"))
        [("q", ("S", (0 : ℚ)))] = some ("S", ts) ∧
      (1 : ℚ) - ts < (3600 : ℚ) := by
  refine summarize_hit_staleurl id model_encoding (fun _ => ("", "")) (fun _ => "")
    6000 300 1 ⟨[("q", ("S", 0))], [], 3600⟩ "Q" "S" "" ?_ (by decide) rfl
  rw [get_hit_eq id 1 ⟨[("q", ("S", 0))], [], 3600⟩ (pyStrip "Q") "S" 0
    (by decide) (by norm_num)]

/-- C8: on a truthy summary-cache hit the handler still calls the fetcher
to resolve the current source URL but never calls the model; a cold article
cache is populated from this fetch; the response is the cached summary with
the freshly resolved URL; and consequently a second call with an identical
query right after a successful miss-path call returns the same summary with
zero additional model invocations. -/
theorem summarize_cached_no_llm (hash : String → String) {τ : Type} (enc : Encoding τ)
    (fetch : String → String × String) (generate : String → String)
    (max_input_tokens max_summary_words : Nat) (now : ℚ) (c : SimpleCache)
    (q s a_text a_url : String) :
    ((SimpleCache.get hash true now c (pyStrip q)).fst = some s → s ≠ "" →
      fetch (pyStrip q) = (a_text, a_url) → a_url ≠ "" →
      summarize_wikipedia hash enc fetch generate true max_input_tokens
          max_summary_words now c q =
        ⟨SummarizeResult.ok (pyStrip q) s a_url,
         if isFalsy (SimpleCache.get_article hash true now
              (SimpleCache.get hash true now c (pyStrip q)).snd (pyStrip q)).fst = true then
           SimpleCache.set_article hash true now
             (SimpleCache.get_article hash true now
               (SimpleCache.get hash true now c (pyStrip q)).snd (pyStrip q)).snd
             (pyStrip q) a_text
         else
           (SimpleCache.get_article hash true now
             (SimpleCache.get hash true now c (pyStrip q)).snd (pyStrip q)).snd,
         1, 0⟩) ∧
    (0 < c.ttl →
      isFalsy (SimpleCache.get hash true now c (pyStrip q)).fst = true →
      fetch (pyStrip q) = (a_text, a_url) → a_url ≠ "" →
      (summarize_wikipedia hash enc fetch generate true max_input_tokens
          max_summary_words now c q).result = SummarizeResult.ok (pyStrip q) s a_url →
      ((summarize_wikipedia hash enc fetch generate true max_input_tokens
           max_summary_words now
           (summarize_wikipedia hash enc fetch generate true max_input_tokens
             max_summary_words now c q).cache q).result =
         SummarizeResult.ok (pyStrip q) s a_url ∧
       (summarize_wikipedia hash enc fetch generate true max_input_tokens
           max_summary_words now
           (summarize_wikipedia hash enc fetch generate true max_input_tokens
             max_summary_words now c q).cache q).llm_calls = 0)) := by
  constructor
  · intro hhit hs hfetch hurl
    exact summarize_wikipedia_hit_eq hash enc fetch generate max_input_tokens
      max_summary_words now c q s a_text a_url hhit hs hfetch hurl
  · intro httl hm hfetch hurl hres
    have hfirst := summarize_wikipedia_miss_eq hash enc fetch generate max_input_tokens
      max_summary_words now c q hm
    have hspec := fetch_and_generate_spec hash enc fetch generate max_input_tokens
      max_summary_words now (SimpleCache.get hash true now c (pyStrip q)).snd
      (pyStrip q) 0 a_text a_url hfetch
    by_cases h1 : a_text = ""
    · exfalso
      have hnf := hspec.1 (Or.inl h1)
      rw [hfirst, hnf] at hres
      simp at hres
    · by_cases h2 : summarize_article enc generate max_input_tokens max_summary_words
          a_text = ""
      · exfalso
        have hnf := hspec.2.1 h1 hurl h2
        rw [hfirst, hnf] at hres
        simp at hres
      · have heq := hspec.2.2 h1 hurl h2
        rw [hfirst, heq] at hres
        have hsum : summarize_article enc generate max_input_tokens max_summary_words
            a_text = s := by
          simpa using hres
        have hlk : lookupKey (generate_key hash (pyStrip q))
            (SimpleCache.set hash true now
              (SimpleCache.set_article hash true now
                (SimpleCache.get hash true now c (pyStrip q)).snd (pyStrip q) a_text)
              (pyStrip q)
              (summarize_article enc generate max_input_tokens max_summary_words a_text)).cache =
            some (summarize_article enc generate max_input_tokens max_summary_words a_text,
              now) :=
          lookupKey_setKey_self _ _ _
        have httl1 : (SimpleCache.set hash true now
            (SimpleCache.set_article hash true now
              (SimpleCache.get hash true now c (pyStrip q)).snd (pyStrip q) a_text)
            (pyStrip q)
            (summarize_article enc generate max_input_tokens max_summary_words a_text)).ttl =
            c.ttl := by
          show ((SimpleCache.get hash true now c (pyStrip q)).snd).ttl = c.ttl
          exact get_snd_ttl hash true now c (pyStrip q)
        have hget2 := get_hit_eq hash now
          (SimpleCache.set hash true now
            (SimpleCache.set_article hash true now
              (SimpleCache.get hash true now c (pyStrip q)).snd (pyStrip q) a_text)
            (pyStrip q)
            (summarize_article enc generate max_input_tokens max_summary_words a_text))
          (pyStrip q)
          (summarize_article enc generate max_input_tokens max_summary_words a_text)
          now hlk (by rw [sub_self, httl1]; exact httl)
        have hsecond := summarize_wikipedia_hit_eq hash enc fetch generate
          max_input_tokens max_summary_words now
          (SimpleCache.set hash true now
            (SimpleCache.set_article hash true now
              (SimpleCache.get hash true now c (pyStrip q)).snd (pyStrip q) a_text)
            (pyStrip q)
            (summarize_article enc generate max_input_tokens max_summary_words a_text))
          q (summarize_article enc generate max_input_tokens max_summary_words a_text)
          a_text a_url (by rw [hget2]) h2 hfetch hurl
        rw [hfirst, heq]
        dsimp only
        rw [hsecond]
        exact ⟨by simp [hsum], rfl⟩

theorem summarize_cached_no_llm_witness :
    (summarize_wikipedia id model_encoding (fun _ => ("T", "u")) (fun _ => "")
        true 6000 300 1 ⟨[("q", ("S", 0))], [], 3600⟩ "Q" =
      ⟨SummarizeResult.ok (pyStrip "Q") "S" "u",
       if isFalsy (SimpleCache.get_article id true 1
            (SimpleCache.get id true 1 ⟨[("q", ("S", 0))], [], 3600⟩
              (pyStrip "Q")).snd (pyStrip "Q")).fst = true then
         SimpleCache.set_article id true 1
           (SimpleCache.get_article id true 1
             (SimpleCache.get id true 1 ⟨[("q", ("S", 0))], [], 3600⟩
               (pyStrip "Q")).snd (pyStrip "Q")).snd
           (pyStrip "Q") "T"
       else
         (SimpleCache.get_article id true 1
           (SimpleCache.get id true 1 ⟨[("q", ("S", 0))], [], 3600⟩
             (pyStrip "Q")).snd (pyStrip "Q")).snd,
       1, 0⟩) ∧
    ((summarize_wikipedia id model_encoding (fun _ => ("T", "u")) (fun _ => "S2")
         true 6000 300 0
         (summarize_wikipedia id model_encoding (fun _ => ("T", "u")) (fun _ => "S2")
           true 6000 300 0 ⟨[], [], 3600⟩ "Py").cache "Py").result =
       SummarizeResult.ok (pyStrip "Py") "S2" "u" ∧
     (summarize_wikipedia id model_encoding (fun _ => ("T", "u")) (fun _ => "S2")
         true 6000 300 0
         (summarize_wikipedia id model_encoding (fun _ => ("T", "u")) (fun _ => "S2")
           true 6000 300 0 ⟨[], [], 3600⟩ "Py").cache "Py").llm_calls = 0) := by
  constructor
  · refine (summarize_cached_no_llm id model_encoding (fun _ => ("T", "u"))
      (fun _ => "") 6000 300 1 ⟨[("q", ("S", 0))], [], 3600⟩ "Q" "S" "T" "u").1
      ?_ (by decide) rfl (by decide)
    rw [get_hit_eq id 1 ⟨[("q", ("S", 0))], [], 3600⟩ (pyStrip "Q") "S" 0
      (by decide) (by norm_num)]
  · refine (summarize_cached_no_llm id model_encoding (fun _ => ("T", "u"))
      (fun _ => "S2") 6000 300 0 ⟨[], [], 3600⟩ "Py" "S2" "T" "u").2
      (by norm_num) rfl rfl (by decide) ?_
    rw [summarize_wikipedia_miss_eq id model_encoding (fun _ => ("T", "u"))
      (fun _ => "S2") 6000 300 0 ⟨[], [], 3600⟩ "Py" rfl]
    rw [(fetch_and_generate_spec id model_encoding (fun _ => ("T", "u"))
      (fun _ => "S2") 6000 300 0
      (SimpleCache.get id true 0 ⟨[], [], 3600⟩ (pyStrip "Py")).snd
      (pyStrip "Py") 0 "T" "u" rfl).2.2 (by decide) (by decide) (by decide)]
    have hS2 : summarize_article model_encoding (fun _ => "S2") 6000 300 "T" = "S2" := by
      decide
    simp [hS2]
